import Mathlib

/-!
Verification development for the `@mxweb/classable` runtime
(`src/index.ts`).  The runtime operates on ordinary JavaScript values:
classes (functions whose source text starts with the `class` keyword),
resolver descriptors (plain objects with `target` and `resolve` fields),
static-factory descriptors, arrays, promises and primitives.

We embed the JavaScript value universe shallowly:

* a function value carries its `name`, its source text (what
  `Function.prototype.toString` returns, used by the `is`/`isAbstract`
  regex tests), a behaviour code and its static properties;
* caller-supplied function behaviour is given by an environment
  `FnEnv : Nat → List JSValue → JSValue` mapping user behaviour codes to
  result values, while the one closure the library itself allocates
  (`() => []` inside `toResolver`) has its behaviour fixed by the
  distinguished code `FnCode.emptyArgs`;
* a promise is modelled as a settled deferred value: either a resolved
  value or a rejection reason (`Except`);
* `new T(...args)` is modelled by the opaque instance value
  `JSValue.inst T args`, recording which constructible was constructed
  with which argument list; `create` additionally returns the list of
  constructions it performs synchronously, so "exactly one construction"
  is statable;
* operations that can throw in JavaScript (calling a non-function,
  spreading a non-array) return `Option`/an error payload.
-/

set_option autoImplicit false

namespace Classable

/-- Behaviour codes for function values: `user id` behaviours are supplied
by an environment (caller-written closures such as `resolve`, `selector`
or static methods), while `emptyArgs` is the `() => []` closure allocated
by `toResolver` itself, whose behaviour is fixed. -/
inductive FnCode where
  | user (id : Nat)
  | emptyArgs
deriving DecidableEq

/-- Shallow model of the JavaScript values the library manipulates. -/
inductive JSValue where
  /-- the `undefined` value -/
  | undefined
  /-- the `null` value -/
  | nullV
  /-- a boolean primitive -/
  | boolV (b : Bool)
  /-- a number primitive (integer fragment) -/
  | numV (n : Int)
  /-- a string primitive -/
  | strV (s : String)
  /-- an array of values -/
  | arr (elems : List JSValue)
  /-- a plain object given by its own enumerable fields -/
  | obj (fields : List (String × JSValue))
  /-- a function value: declared name, source text as returned by
  `Function.prototype.toString`, behaviour code, static properties -/
  | func (name : String) (src : String) (code : FnCode)
      (statics : List (String × JSValue))
  /-- an instance produced by `new cls(...args)` -/
  | inst (cls : JSValue) (args : List JSValue)
  /-- a settled promise: resolved value or rejection reason -/
  | promise (result : Except JSValue JSValue)

/-- Environment giving the behaviour of caller-supplied closures:
`env id args` is the value the closure with behaviour code `user id`
returns when called with `args`. -/
abbrev FnEnv := Nat → List JSValue → JSValue

/-- First-match lookup in the field list of an object (JavaScript
own-property lookup; field names in an object literal are unique). -/
def lookupField : List (String × JSValue) → String → Option JSValue
  | [], _ => none
  | (k, v) :: rest, key => if k = key then some v else lookupField rest key

/-- The character class `\s` of JavaScript regular expressions. -/
def jsWhitespace (c : Char) : Bool :=
  c == ' ' || c == '\t' || c == '\n' || c == '\r' || c == '\x0b' ||
  c == '\x0c' || c == '\u00A0' || c == '\u1680' ||
  ('\u2000' ≤ c && c ≤ '\u200A') || c == '\u2028' || c == '\u2029' ||
  c == '\u202F' || c == '\u205F' || c == '\u3000' || c == '\uFEFF'

/-- The test `/^class\s/.test(s)` applied to the character list of `s`:
the five characters `class` followed by one whitespace character. -/
def matchClassWs (l : List Char) : Bool :=
  match l with
  | c1 :: c2 :: c3 :: c4 :: c5 :: c6 :: _ =>
      c1 == 'c' && c2 == 'l' && c3 == 'a' && c4 == 's' && c5 == 's' &&
      jsWhitespace c6
  | _ => false

/-- Drop leading JavaScript whitespace (the `\s*` part of `\s+`). -/
def dropWs : List Char → List Char
  | [] => []
  | c :: rest => if jsWhitespace c then dropWs rest else c :: rest

/-- The test `/^abstract\s+class\s/.test(s)`: the eight characters
`abstract`, at least one whitespace character, then `class` and one
whitespace character. -/
def matchAbstractClassWs (l : List Char) : Bool :=
  match l with
  | c1 :: c2 :: c3 :: c4 :: c5 :: c6 :: c7 :: c8 :: c9 :: rest =>
      c1 == 'a' && c2 == 'b' && c3 == 's' && c4 == 't' && c5 == 'r' &&
      c6 == 'a' && c7 == 'c' && c8 == 't' && jsWhitespace c9 &&
      matchClassWs (dropWs rest)
  | _ => false

/-- `classable.is`: `typeof fn === "function" &&
`/^class\s/.test(Function.prototype.toString.call(fn))`. -/
def is : JSValue → Bool
  | .func _ src _ _ => matchClassWs src.data
  | _ => false

/-- `classable.isAbstract`: `typeof fn === "function" &&
`/^abstract\s+class\s/.test(Function.prototype.toString.call(fn))`. -/
def isAbstract : JSValue → Bool
  | .func _ src _ _ => matchAbstractClassWs src.data
  | _ => false

/-- The `hasOwnProperty` helper of the source: true only when the value
is a non-null object that owns the property. -/
def hasOwnProperty (v : JSValue) (prop : String) : Bool :=
  match v with
  | .obj fields => (lookupField fields prop).isSome
  | _ => false

/-- JavaScript property access `v[k]` for the shapes the library reads:
a missing field yields `undefined`; on a function value the static
properties are consulted, with the built-in `name` property as fallback. -/
def getProp (v : JSValue) (k : String) : JSValue :=
  match v with
  | .obj fields => (lookupField fields k).getD .undefined
  | .func n _ _ statics =>
      match lookupField statics k with
      | some w => w
      | none => if k = "name" then .strV n else .undefined
  | _ => .undefined

/-- `typeof v === "function"`. -/
def isFunction : JSValue → Bool
  | .func _ _ _ _ => true
  | _ => false

/-- `classable.isResolver`: the value owns a `target` field satisfying
`is` and a callable `resolve` field. -/
def isResolver (o : JSValue) : Bool :=
  hasOwnProperty o "target" && is (getProp o "target") &&
  hasOwnProperty o "resolve" && isFunction (getProp o "resolve")

/-- A JavaScript call `f(...args)`: a function value evaluates its
behaviour (library-fixed for `emptyArgs`, environment-given for `user`
codes); calling a non-function throws, modelled as `none`. -/
def jsCall (env : FnEnv) (f : JSValue) (args : List JSValue) :
    Option JSValue :=
  match f with
  | .func _ _ (.user id) _ => some (env id args)
  | .func _ _ .emptyArgs _ => some (.arr [])
  | _ => none

/-- Spreading a value into an argument list (`...args`): only an array
spreads; spreading anything else throws, modelled as `none`. -/
def spreadList : JSValue → Option (List JSValue)
  | .arr l => some l
  | _ => none

/-- The argument list the source passes to `resolve`/`selector`:
`(runtime === undefined ? [] : [runtime])` (lines 626 and 772 of
`src/index.ts`). -/
def runtimeArgs : JSValue → List JSValue
  | .undefined => []
  | r => [r]

/-- The `() => []` closure allocated by `toResolver` (the TypeScript
cast `as unknown as Args` is erased at runtime). -/
def emptyResolve : JSValue := .func "resolve" "() => []" .emptyArgs []

/-- `classable.toResolver`: a resolver is returned unchanged, anything
else is wrapped as `{ target: cls, resolve: () => [] }`. -/
def toResolver (cls : JSValue) : JSValue :=
  if isResolver cls then cls
  else .obj [("target", cls), ("resolve", emptyResolve)]

/-- `classable.getTarget`: a resolver yields its `target` field, any
other value is returned itself. -/
def getTarget (cls : JSValue) : JSValue :=
  if isResolver cls then getProp cls "target" else cls

/-- `classable.wrap`: for a resolver, a fresh object
`{ target: wrapper(cls.target), resolve: cls.resolve }`; otherwise
`wrapper(cls)`.  The caller-supplied `wrapper` is a host-level function
and is embedded as a Lean function on values. -/
def wrap (cls : JSValue) (wrapper : JSValue → JSValue) : JSValue :=
  if isResolver cls then
    .obj [("target", wrapper (getProp cls "target")),
          ("resolve", getProp cls "resolve")]
  else wrapper cls

/-- `classable.getDescriptor`: `{ type: "resolver", target:
cls.target.name }` for a resolver, `{ type: "class", target: cls.name }`
otherwise. -/
def getDescriptor (cls : JSValue) : JSValue :=
  if isResolver cls then
    .obj [("type", .strV "resolver"),
          ("target", getProp (getProp cls "target") "name")]
  else
    .obj [("type", .strV "class"), ("target", getProp cls "name")]

/-- An error value standing for the `TypeError` raised when a
non-iterable is spread inside the promise continuation of `create`. -/
def spreadTypeError : JSValue := .strV "TypeError: spread of non-iterable"

/-- `classable.create`.  Returns the produced value together with the
list of constructions (`(constructible, argument list)` pairs) the call
performs synchronously; a synchronous throw is `none`.

Mirror of lines 620–639 of `src/index.ts`:
* resolver input: call `resolve` with `runtimeArgs runtime`; if the
  result is a promise, return a promise performing the construction when
  (and only when) the inner computation succeeds — a rejection
  propagates unchanged and nothing is constructed; otherwise spread the
  result and construct `target` now;
* non-resolver input: `new cls()` with zero arguments (constructing a
  non-function throws). -/
def create (env : FnEnv) (cls : JSValue) (runtime : JSValue) :
    Option (JSValue × List (JSValue × List JSValue)) :=
  if isResolver cls then
    match jsCall env (getProp cls "resolve") (runtimeArgs runtime) with
    | some (.promise res) =>
        match res with
        | .ok v =>
            match spreadList v with
            | some l =>
                some (.promise (.ok (.inst (getProp cls "target") l)), [])
            | none => some (.promise (.error spreadTypeError), [])
        | .error e => some (.promise (.error e), [])
    | some args =>
        match spreadList args with
        | some l =>
            some (.inst (getProp cls "target") l,
                  [(getProp cls "target", l)])
        | none => none
    | none => none
  else
    if isFunction cls then some (.inst cls [], [(cls, [])]) else none

/-- `classable.from` (lines 761–777): destructure `{ target, selector }`,
call `selector` with `runtimeArgs runtime`, destructure the resulting
`{ method, args }`, and return `target[method](...args)` unchanged. -/
def from_ (env : FnEnv) (d : JSValue) (runtime : JSValue) :
    Option JSValue :=
  match jsCall env (getProp d "selector") (runtimeArgs runtime) with
  | some sel =>
      match getProp sel "method" with
      | .strV m =>
          match spreadList (getProp sel "args") with
          | some l => jsCall env (getProp (getProp d "target") m) l
          | none => none
      | _ => none
  | none => none

/-- `v instanceof Promise`: whether the value is a deferred value. -/
def isDeferred : JSValue → Bool
  | .promise _ => true
  | _ => false

/-! ### Concrete values used to instantiate the theorems

`class User { constructor(name, age) {...} }` and friends, with the
source text shortened to the prefix the `is`/`isAbstract` regex tests
inspect. -/

/-- A concrete class: `class User`. -/
def userClass : JSValue := .func "User" "class User" (.user 100) []

/-- A concrete abstract class: `abstract class Base`. -/
def baseAbstract : JSValue := .func "Base" "abstract class Base" (.user 101) []

/-- A concrete class with a static factory method `create`
(behaviour code 3). -/
def cacheClass : JSValue :=
  .func "Cache" "class Cache" (.user 102)
    [("create", .func "create" "create(ttl)" (.user 3) [])]

/-- A concrete class whose static `make` echoes its arguments
(behaviour code 1). -/
def echoFactoryTarget : JSValue :=
  .func "Fact" "class Fact" (.user 104)
    [("make", .func "make" "make()" (.user 1) [])]

/-- Behaviour environment for the concrete examples. -/
def demoEnv : FnEnv := fun id a =>
  match id with
  | 1 => .arr a
  | 2 => .obj [("method", .strV "make"), ("args", .arr a)]
  | 3 => .inst cacheClass a
  | 4 => .arr [.strV "John", .numV 30]
  | 5 => .promise (.ok (.arr [.strV "John"]))
  | 6 => .promise (.error (.strV "boom"))
  | 7 => .obj [("method", .strV "create"), ("args", .arr [.numV 3600])]
  | _ => .undefined

/-- `{ target: User, resolve: () => ["John", 30] }`. -/
def syncResolver : JSValue :=
  .obj [("target", userClass),
        ("resolve", .func "resolve" "() => args" (.user 4) [])]

/-- `{ target: User, resolve: async () => ["John"] }`, already settled
successfully. -/
def asyncOkResolver : JSValue :=
  .obj [("target", userClass),
        ("resolve", .func "resolve" "async () => args" (.user 5) [])]

/-- `{ target: User, resolve: async () => ... }`, settled with a
rejection. -/
def asyncErrResolver : JSValue :=
  .obj [("target", userClass),
        ("resolve", .func "resolve" "async () => boom" (.user 6) [])]

/-- `{ target: User, resolve }` where `resolve` echoes its own argument
list (behaviour code 1), so the call convention is observable. -/
def echoResolver : JSValue :=
  .obj [("target", userClass),
        ("resolve", .func "resolve" "echo" (.user 1) [])]

/-- `{ target: Cache, selector: () => ({ method: "create", args: [3600] }) }`. -/
def cacheFactory : JSValue :=
  .obj [("target", cacheClass),
        ("selector", .func "selector" "selector()" (.user 7) [])]

/-- `{ target: Fact, selector }` where `selector` echoes the arguments
it was called with into the `args` field (behaviour code 2). -/
def echoFactory : JSValue :=
  .obj [("target", echoFactoryTarget),
        ("selector", .func "selector" "echo selector" (.user 2) [])]

/-- A concrete wrapped class, the output of the demo transform below. -/
def wrappedUser : JSValue :=
  .func "WrappedUser" "class WrappedUser" (.user 106) []

/-- A concrete `wrap` transform (a middleware replacing the class). -/
def demoWrap : JSValue → JSValue := fun _ => wrappedUser

/-! ### Classification lemmas -/

/-- A source string cannot simultaneously begin with `class`‐plus‐space
and with `abstract`: the two anchored regexes are disjoint. -/
lemma matchWs_not_both (l : List Char) :
    ¬(matchClassWs l = true ∧ matchAbstractClassWs l = true) := by
  rintro ⟨h1, h2⟩
  rcases l with _ | ⟨a1, rest⟩
  · simp [matchClassWs] at h1
  · rcases rest with _ | ⟨a2, _ | ⟨a3, _ | ⟨a4, _ | ⟨a5, _ | ⟨a6, _ |
      ⟨a7, _ | ⟨a8, _ | ⟨a9, rest⟩⟩⟩⟩⟩⟩⟩⟩ <;>
      simp_all [matchClassWs, matchAbstractClassWs]

/-! ### Claim theorems -/

/-- Claim C1, counterexample: the claim says `getDescriptor(User)`
yields `{ kind: "bare", name: "User" }`, but the record returned by the
code has no `kind` field and no `name` field at that very input. -/
theorem getDescriptor_kind_bare_cex :
    ¬(getProp (getDescriptor userClass) "kind" = .strV "bare" ∧
      getProp (getDescriptor userClass) "name" = .strV "User") := by
  rintro ⟨h, -⟩
  exact nomatch h

/-- Claim C1 as amended: for every Classable input, `getDescriptor`
returns a record whose `type` field is `"class"` when the input is a
bare Constructible and `"resolver"` when it is a ResolverDescriptor, and
whose `target` field is the declared name of the target; in particular
`getDescriptor(User)` yields `{ type: "class", target: "User" }` and
`getDescriptor({ target: User, resolve: () => [] })` yields
`{ type: "resolver", target: "User" }`. -/
theorem getDescriptor_type_target
    (n src : String) (c : FnCode) (st : List (String × JSValue))
    (rn rsrc : String) (rc : FnCode) (rst : List (String × JSValue))
    (hname : lookupField st "name" = none)
    (h : matchClassWs src.data = true) :
    getDescriptor (.func n src c st) =
      .obj [("type", .strV "class"), ("target", .strV n)] ∧
    getDescriptor (.obj [("target", .func n src c st),
                         ("resolve", .func rn rsrc rc rst)]) =
      .obj [("type", .strV "resolver"), ("target", .strV n)] := by
  constructor
  · simp [getDescriptor, isResolver, hasOwnProperty, getProp, hname]
  · have hres : isResolver (.obj [("target", .func n src c st),
        ("resolve", .func rn rsrc rc rst)]) = true := by
      simp [isResolver, hasOwnProperty, getProp, lookupField, is,
        isFunction, h]
    simp [getDescriptor, hres, getProp, lookupField, hname]

/-- Witness for the amended C1, at the `User` class and the
`{ target: User, resolve: () => ... }` resolver. -/
theorem getDescriptor_type_target_witness :
    getDescriptor userClass =
      .obj [("type", .strV "class"), ("target", .strV "User")] ∧
    getDescriptor syncResolver =
      .obj [("type", .strV "resolver"), ("target", .strV "User")] :=
  getDescriptor_type_target "User" "class User" (.user 100) []
    "resolve" "() => args" (.user 4) [] rfl (by decide)

/-- Claim C2: for every ResolverDescriptor whose `resolve` returns an
immediate argument list, `create` constructs the target with exactly
that argument list, performs exactly one construction (the construction
log is the one-element list), and the result is the instance itself, not
a deferred value. -/
theorem create_sync_resolution
    (env : FnEnv) (tn src : String) (tc : FnCode)
    (tst : List (String × JSValue))
    (rn rsrc : String) (rid : Nat) (rst : List (String × JSValue))
    (r : JSValue) (l : List JSValue)
    (htgt : matchClassWs src.data = true)
    (hres : env rid (runtimeArgs r) = .arr l) :
    create env
      (.obj [("target", .func tn src tc tst),
             ("resolve", .func rn rsrc (.user rid) rst)]) r =
      some (.inst (.func tn src tc tst) l, [(.func tn src tc tst, l)]) ∧
    isDeferred (.inst (.func tn src tc tst) l) = false := by
  have hisR : isResolver (.obj [("target", .func tn src tc tst),
      ("resolve", .func rn rsrc (.user rid) rst)]) = true := by
    simp [isResolver, hasOwnProperty, getProp, lookupField, is,
      isFunction, htgt]
  refine ⟨?_, rfl⟩
  simp [create, hisR, jsCall, getProp, lookupField, hres, spreadList]

/-- Witness for C2: `create({ target: User, resolve: () => ["John", 30] })`
builds exactly one `User("John", 30)` synchronously. -/
theorem create_sync_resolution_witness :
    create demoEnv syncResolver .undefined =
      some (.inst userClass [.strV "John", .numV 30],
            [(userClass, [.strV "John", .numV 30])]) ∧
    isDeferred (.inst userClass [.strV "John", .numV 30]) = false :=
  create_sync_resolution demoEnv "User" "class User" (.user 100) []
    "resolve" "() => args" 4 [] .undefined [.strV "John", .numV 30]
    (by decide) rfl

/-- Claim C3: for a ResolverDescriptor whose `resolve` returns a
deferred argument list, `create` returns a deferred value; on success of
the inner computation it yields the target constructed with the resolved
argument list, and on failure with error `E` it fails with the very same
`E` — in both cases `create` performs no synchronous construction (empty
construction log), and in the failure case no instance exists anywhere
in the result, so the target is never constructed. -/
theorem create_async_resolution
    (env : FnEnv) (tn src : String) (tc : FnCode)
    (tst : List (String × JSValue))
    (rn rsrc : String) (rid : Nat) (rst : List (String × JSValue))
    (r : JSValue)
    (htgt : matchClassWs src.data = true) :
    (∀ l : List JSValue,
       env rid (runtimeArgs r) = .promise (.ok (.arr l)) →
       create env
         (.obj [("target", .func tn src tc tst),
                ("resolve", .func rn rsrc (.user rid) rst)]) r =
         some (.promise (.ok (.inst (.func tn src tc tst) l)), [])) ∧
    (∀ e : JSValue,
       env rid (runtimeArgs r) = .promise (.error e) →
       create env
         (.obj [("target", .func tn src tc tst),
                ("resolve", .func rn rsrc (.user rid) rst)]) r =
         some (.promise (.error e), [])) := by
  have hisR : isResolver (.obj [("target", .func tn src tc tst),
      ("resolve", .func rn rsrc (.user rid) rst)]) = true := by
    simp [isResolver, hasOwnProperty, getProp, lookupField, is,
      isFunction, htgt]
  constructor
  · intro l hres
    simp [create, hisR, jsCall, getProp, lookupField, hres, spreadList]
  · intro e hres
    simp [create, hisR, jsCall, getProp, lookupField, hres, spreadList]

/-- Witness for C3: a successfully settled async resolver yields a
deferred `User("John")`, and a rejected one propagates the error
`"boom"` with no construction. -/
theorem create_async_resolution_witness :
    create demoEnv asyncOkResolver .undefined =
      some (.promise (.ok (.inst userClass [.strV "John"])), []) ∧
    create demoEnv asyncErrResolver .undefined =
      some (.promise (.error (.strV "boom")), []) :=
  ⟨(create_async_resolution demoEnv "User" "class User" (.user 100) []
     "resolve" "async () => args" 5 [] .undefined (by decide)).1
     [.strV "John"] rfl,
   (create_async_resolution demoEnv "User" "class User" (.user 100) []
     "resolve" "async () => boom" 6 [] .undefined (by decide)).2
     (.strV "boom") rfl⟩

/-- Claim C4: `toResolver` is idempotent on every valid Classable: a
ResolverDescriptor is returned unchanged, and a bare Constructible is
wrapped as `{ target: input, resolve: () => [] }`, whose `resolve`
yields the empty argument list under every environment. -/
theorem toResolver_idempotent :
    ∀ x : JSValue, is x = true ∨ isResolver x = true →
      toResolver (toResolver x) = toResolver x ∧
      (isResolver x = true → toResolver x = x) ∧
      (is x = true →
        toResolver x = .obj [("target", x), ("resolve", emptyResolve)] ∧
        ∀ (env : FnEnv) (a : List JSValue),
          jsCall env (getProp (toResolver x) "resolve") a =
            some (.arr [])) := by
  intro x hx
  cases x with
  | func n src c st =>
      have hres : isResolver (.func n src c st) = false := by
        simp [isResolver, hasOwnProperty]
      have hisx : is (.func n src c st) = true := by
        rcases hx with h | h
        · exact h
        · rw [hres] at h; exact nomatch h
      have hw : toResolver (.func n src c st) =
          .obj [("target", .func n src c st),
                ("resolve", emptyResolve)] := by
        simp [toResolver, hres]
      have hres2 : isResolver (.obj [("target", .func n src c st),
          ("resolve", emptyResolve)]) = true := by
        simp [isResolver, hasOwnProperty, getProp, lookupField,
          isFunction, emptyResolve, hisx]
      refine ⟨?_, ?_, ?_⟩
      · rw [hw]; simp [toResolver, hres2]
      · intro hc; rw [hres] at hc; exact nomatch hc
      · intro _
        refine ⟨hw, ?_⟩
        intro env a
        rw [hw]
        simp [getProp, lookupField, jsCall, emptyResolve]
  | obj fs =>
      have hx2 : isResolver (.obj fs) = true := by
        rcases hx with h | h
        · simp [is] at h
        · exact h
      have hw : toResolver (.obj fs) = .obj fs := by
        simp [toResolver, hx2]
      refine ⟨by rw [hw, hw], fun _ => hw, ?_⟩
      intro hc; simp [is] at hc
  | undefined => rcases hx with h | h <;>
      simp [is, isResolver, hasOwnProperty] at h
  | nullV => rcases hx with h | h <;>
      simp [is, isResolver, hasOwnProperty] at h
  | boolV b => rcases hx with h | h <;>
      simp [is, isResolver, hasOwnProperty] at h
  | numV m => rcases hx with h | h <;>
      simp [is, isResolver, hasOwnProperty] at h
  | strV s => rcases hx with h | h <;>
      simp [is, isResolver, hasOwnProperty] at h
  | arr l => rcases hx with h | h <;>
      simp [is, isResolver, hasOwnProperty] at h
  | inst cl a => rcases hx with h | h <;>
      simp [is, isResolver, hasOwnProperty] at h
  | promise p => rcases hx with h | h <;>
      simp [is, isResolver, hasOwnProperty] at h

/-- Witness for C4, at the `User` class: doubly applying `toResolver`
changes nothing, the wrap has the documented shape, and its `resolve`
returns the empty argument list. -/
theorem toResolver_idempotent_witness :
    toResolver (toResolver userClass) = toResolver userClass ∧
    toResolver userClass =
      .obj [("target", userClass), ("resolve", emptyResolve)] ∧
    jsCall demoEnv (getProp (toResolver userClass) "resolve") [] =
      some (.arr []) := by
  obtain ⟨h1, -, h3⟩ := toResolver_idempotent userClass (Or.inl (by decide))
  obtain ⟨h4, h5⟩ := h3 (by decide)
  exact ⟨h1, h4, h5 demoEnv []⟩

/-- Claim C5: round-trip — for every value satisfying the
`isConstructible` predicate (`is`), `getTarget (toResolver C) = C`. -/
theorem getTarget_toResolver (C : JSValue) (h : is C = true) :
    getTarget (toResolver C) = C := by
  cases C <;> simp [is] at h
  case func n src c st =>
    have hres : isResolver (.func n src c st) = false := by
      simp [isResolver, hasOwnProperty]
    have hres2 : isResolver (.obj [("target", .func n src c st),
        ("resolve", emptyResolve)]) = true := by
      simp [isResolver, hasOwnProperty, getProp, lookupField,
        isFunction, emptyResolve, is, h]
    simp [toResolver, hres, getTarget, hres2, getProp, lookupField]

/-- Witness for C5 at the `User` class. -/
theorem getTarget_toResolver_witness :
    getTarget (toResolver userClass) = userClass :=
  getTarget_toResolver userClass (by decide)

/-- Claim C6: `wrap` preserves shape — on a bare Constructible it
returns exactly the transformed class `f C`, and on a ResolverDescriptor
it returns a descriptor whose `target` is `f` applied to the old target
and whose `resolve` field is the very same value, with no other field. -/
theorem wrap_preserves_shape :
    (∀ (C : JSValue) (f : JSValue → JSValue),
        is C = true → wrap C f = f C) ∧
    (∀ (t rv : JSValue) (f : JSValue → JSValue),
        is t = true → isFunction rv = true →
        wrap (.obj [("target", t), ("resolve", rv)]) f =
          .obj [("target", f t), ("resolve", rv)]) := by
  constructor
  · intro C f h
    cases C <;> simp [is] at h
    simp [wrap, isResolver, hasOwnProperty]
  · intro t rv f ht hrv
    have hres : isResolver (.obj [("target", t),
        ("resolve", rv)]) = true := by
      simp [isResolver, hasOwnProperty, getProp, lookupField, ht, hrv]
    simp [wrap, hres, getProp, lookupField]

/-- Witness for C6: wrapping the bare `User` class gives the transform
output itself; wrapping the `User` resolver substitutes the wrapped
target and keeps the same `resolve`. -/
theorem wrap_preserves_shape_witness :
    wrap userClass demoWrap = demoWrap userClass ∧
    wrap syncResolver demoWrap =
      .obj [("target", wrappedUser),
            ("resolve", .func "resolve" "() => args" (.user 4) [])] :=
  ⟨wrap_preserves_shape.1 userClass demoWrap (by decide),
   wrap_preserves_shape.2 userClass
     (.func "resolve" "() => args" (.user 4) []) demoWrap
     (by decide) (by decide)⟩

/-- Claim C7: `from` invokes the selector, invokes the named static
method on the target with the selected arguments, and returns exactly
that return value of the static method, with no wrapping or validation
of the returned value. -/
theorem from_static_factory
    (env : FnEnv) (cn csrc : String) (cc : FnCode)
    (statics : List (String × JSValue))
    (sn ssrc : String) (sid : Nat) (sst : List (String × JSValue))
    (r : JSValue) (m : String) (l : List JSValue)
    (mn msrc : String) (mid : Nat) (mst : List (String × JSValue))
    (hsel : env sid (runtimeArgs r) =
      .obj [("method", .strV m), ("args", .arr l)])
    (hm : lookupField statics m = some (.func mn msrc (.user mid) mst)) :
    from_ env
      (.obj [("target", .func cn csrc cc statics),
             ("selector", .func sn ssrc (.user sid) sst)]) r =
      some (env mid l) := by
  simp [from_, jsCall, getProp, lookupField, hsel, spreadList, hm]

/-- Witness for C7:
`from({ target: Cache, selector: () => ({ method: "create", args: [3600] }) })`
returns exactly what `Cache.create(3600)` returns. -/
theorem from_static_factory_witness :
    from_ demoEnv cacheFactory .undefined =
      some (.inst cacheClass [.numV 3600]) :=
  from_static_factory demoEnv "Cache" "class Cache" (.user 102)
    [("create", .func "create" "create(ttl)" (.user 3) [])]
    "selector" "selector()" 7 [] .undefined "create" [.numV 3600]
    "create" "create(ttl)" 3 [] rfl rfl

/-- Claim C8: the predicates `is` and `isAbstract` are mutually
exclusive over every input; a function whose source text matches the
anchored `class` regex satisfies `is` and not `isAbstract`, and a
function whose source text matches the anchored `abstract class` regex
satisfies `isAbstract` and not `is`. -/
theorem is_isAbstract_mutually_exclusive :
    (∀ v : JSValue, ¬(is v = true ∧ isAbstract v = true)) ∧
    (∀ (n src : String) (c : FnCode) (st : List (String × JSValue)),
        matchClassWs src.data = true →
        is (.func n src c st) = true ∧
        isAbstract (.func n src c st) = false) ∧
    (∀ (n src : String) (c : FnCode) (st : List (String × JSValue)),
        matchAbstractClassWs src.data = true →
        isAbstract (.func n src c st) = true ∧
        is (.func n src c st) = false) := by
  refine ⟨?_, ?_, ?_⟩
  · rintro v ⟨h1, h2⟩
    cases v <;> simp [is, isAbstract] at h1 h2
    exact matchWs_not_both _ ⟨h1, h2⟩
  · intro n src c st h
    have h2 : isAbstract (.func n src c st) = false := by
      cases hab : matchAbstractClassWs src.data with
      | false => simpa [isAbstract] using hab
      | true => exact absurd ⟨h, hab⟩ (matchWs_not_both _)
    exact ⟨by simpa [is] using h, h2⟩
  · intro n src c st h
    have h2 : is (.func n src c st) = false := by
      cases hcl : matchClassWs src.data with
      | false => simpa [is] using hcl
      | true => exact absurd ⟨hcl, h⟩ (matchWs_not_both _)
    exact ⟨by simpa [isAbstract] using h, h2⟩

/-- Witness for C8 at the concrete class `User` and the concrete
abstract class `Base`. -/
theorem is_isAbstract_mutually_exclusive_witness :
    is userClass = true ∧ isAbstract userClass = false ∧
    isAbstract baseAbstract = true ∧ is baseAbstract = false := by
  obtain ⟨-, h2, h3⟩ := is_isAbstract_mutually_exclusive
  obtain ⟨hu1, hu2⟩ := h2 "User" "class User" (.user 100) [] (by decide)
  obtain ⟨hb1, hb2⟩ := h3 "Base" "abstract class Base" (.user 101) []
    (by decide)
  exact ⟨hu1, hu2, hb1, hb2⟩

/-- Claim C9: classification is total (the embedded predicates are total
Boolean functions, mirroring the short-circuit checks of the source that
make them throw-free), and `isResolver` holds exactly on records owning
a `target` field satisfying `is` and a callable `resolve` field — hence
it returns `false` on every other value: `null`, primitives, plain
functions, and malformed records. -/
theorem isResolver_characterization :
    ∀ v : JSValue, isResolver v = true ↔
      ∃ fs t r, v = .obj fs ∧ lookupField fs "target" = some t ∧
        is t = true ∧ lookupField fs "resolve" = some r ∧
        isFunction r = true := by
  intro v
  constructor
  · intro h
    cases v
    case obj fs =>
      simp only [isResolver, hasOwnProperty, getProp,
        Bool.and_eq_true] at h
      obtain ⟨⟨⟨hts, hist⟩, hrs⟩, hfn⟩ := h
      obtain ⟨t, ht⟩ := Option.isSome_iff_exists.mp hts
      obtain ⟨r, hr⟩ := Option.isSome_iff_exists.mp hrs
      refine ⟨fs, t, r, rfl, ht, ?_, hr, ?_⟩
      · rw [ht] at hist; simpa using hist
      · rw [hr] at hfn; simpa using hfn
    all_goals simp [isResolver, hasOwnProperty] at h
  · rintro ⟨fs, t, r, rfl, ht, hist, hr, hfn⟩
    simp [isResolver, hasOwnProperty, getProp, ht, hr, hist, hfn]

/-- Claim C10: `create` and `from` call the `resolve` (respectively
`selector`) function with zero arguments when the runtime is
`undefined` (absent), and with the single argument `[runtime]`
otherwise; observed through echoing resolver and selector behaviours,
the constructed arguments are exactly `runtimeArgs runtime`. -/
theorem runtime_undefined_convention
    (env : FnEnv) (tn src : String) (tc : FnCode)
    (tst : List (String × JSValue))
    (rn rsrc : String) (rid : Nat) (rst : List (String × JSValue))
    (fn fsrc : String) (fc : FnCode) (fstatics : List (String × JSValue))
    (sn ssrc : String) (sid : Nat) (sst : List (String × JSValue))
    (m mn msrc : String) (mid : Nat) (mst : List (String × JSValue))
    (htgt : matchClassWs src.data = true)
    (hres : ∀ a, env rid a = .arr a)
    (hsel : ∀ a, env sid a =
      .obj [("method", .strV m), ("args", .arr a)])
    (hmth : lookupField fstatics m = some (.func mn msrc (.user mid) mst))
    (hecho : ∀ a, env mid a = .arr a) :
    runtimeArgs .undefined = [] ∧
    (∀ r : JSValue, r ≠ .undefined → runtimeArgs r = [r]) ∧
    (∀ r : JSValue,
       create env
         (.obj [("target", .func tn src tc tst),
                ("resolve", .func rn rsrc (.user rid) rst)]) r =
         some (.inst (.func tn src tc tst) (runtimeArgs r),
               [(.func tn src tc tst, runtimeArgs r)])) ∧
    (∀ r : JSValue,
       from_ env
         (.obj [("target", .func fn fsrc fc fstatics),
                ("selector", .func sn ssrc (.user sid) sst)]) r =
         some (.arr (runtimeArgs r))) := by
  have hisR : isResolver (.obj [("target", .func tn src tc tst),
      ("resolve", .func rn rsrc (.user rid) rst)]) = true := by
    simp [isResolver, hasOwnProperty, getProp, lookupField, is,
      isFunction, htgt]
  refine ⟨rfl, ?_, ?_, ?_⟩
  · intro r hr
    cases r <;> first | exact absurd rfl hr | rfl
  · intro r
    simp [create, hisR, jsCall, getProp, lookupField, hres, spreadList]
  · intro r
    simp [from_, jsCall, getProp, lookupField, hsel, spreadList, hmth,
      hecho]

/-- Witness for C10: with echoing resolver and selector, both `create`
and `from` observe zero call arguments for an `undefined` runtime and
exactly `[runtime]` for the concrete runtime `"ctx"`. -/
theorem runtime_undefined_convention_witness :
    create demoEnv echoResolver .undefined =
      some (.inst userClass [], [(userClass, [])]) ∧
    create demoEnv echoResolver (.strV "ctx") =
      some (.inst userClass [.strV "ctx"],
            [(userClass, [.strV "ctx"])]) ∧
    from_ demoEnv echoFactory .undefined = some (.arr []) ∧
    from_ demoEnv echoFactory (.strV "ctx") =
      some (.arr [.strV "ctx"]) := by
  obtain ⟨-, -, hc, hf⟩ := runtime_undefined_convention demoEnv
    "User" "class User" (.user 100) [] "resolve" "echo" 1 []
    "Fact" "class Fact" (.user 104)
    [("make", .func "make" "make()" (.user 1) [])]
    "selector" "echo selector" 2 [] "make" "make" "make()" 1 []
    (by decide) (fun _ => rfl) (fun _ => rfl) rfl (fun _ => rfl)
  exact ⟨hc .undefined, hc (.strV "ctx"), hf .undefined, hf (.strV "ctx")⟩

end Classable
